import Mathlib

/-!
Verification development for the sigpro repository: a Signal inbound event
pipeline (normalizer, SQLite event log with per-consumer offsets, singleton
collector) and an out-of-band authorization workflow (voice note →
transcript → 4-digit code → validation → execution → cleanup).

The Python scripts are embedded shallowly:

* JSON/Python values are modelled by `PyVal`; Python truthiness, `str()`,
  `dict.get`, `x or y`, `str.strip()` are modelled by `PyVal.truthy`,
  `pyStr`, `pyGetD`/`pyGetAttr`, `pyOr`, `pyStrip`.
* Operations that Python may abort with an exception (`AttributeError` on
  `.get` of a non-dict, `TypeError` on `Path(non-str)` or on ordering a
  non-number) return `Except PyErr`.
* SQLite tables become Lean lists; each script's state files become fields
  of explicit state records; external collaborators (transcription backend,
  execution agent, message delivery) are an `Oracle` of unconstrained
  functions, since only their interface matters here.
* `time.time()` is passed in explicitly as `now`.
-/

/-- Python/JSON values as stored in the JSONL files, the SQLite `*_json`
columns and the ad-hoc state files. Numbers are modelled as integers (no
claim in scope depends on float behaviour). -/
inductive PyVal where
  | pynone
  | pybool (b : Bool)
  | pyint (n : Int)
  | pystr (s : String)
  | pylist (xs : List PyVal)
  | pydict (kvs : List (String × PyVal))

/-- Python exceptions that the embedded code can raise. -/
inductive PyErr where
  | attributeError
  | typeError
deriving DecidableEq

/-- Python truthiness (`bool(v)`). -/
def PyVal.truthy : PyVal → Bool
  | .pynone => false
  | .pybool b => b
  | .pyint n => n != 0
  | .pystr s => s != ""
  | .pylist xs => !xs.isEmpty
  | .pydict kvs => !kvs.isEmpty

/-- Python `a or b`: the first operand if truthy, otherwise the second. -/
def pyOr (a b : PyVal) : PyVal := if a.truthy then a else b

/-- Lookup of a key in a (Python) dict, `none` when absent. -/
def pyLookup (kvs : List (String × PyVal)) (k : String) : Option PyVal :=
  (kvs.find? (fun kv => kv.1 == k)).map (fun kv => kv.2)

/-- `d.get(k)` on a value statically known to be a dict (default `None`). -/
def pyGetD (kvs : List (String × PyVal)) (k : String) : PyVal :=
  (pyLookup kvs k).getD .pynone

/-- `v.get(k)` where `v` may not be a dict: Python raises `AttributeError`
on anything that is not a dict. -/
def pyGetAttr (v : PyVal) (k : String) : Except PyErr PyVal :=
  match v with
  | .pydict kvs => .ok (pyGetD kvs k)
  | _ => .error .attributeError

/-- Characters stripped by Python `str.strip()` (the ASCII whitespace set;
the rare non-ASCII whitespace Python also strips never occurs here). -/
def isPyWs (c : Char) : Bool :=
  c = ' ' || c = '\t' || c = '\n' || c = '\r' || c = '\x0b' || c = '\x0c'

def pyStripL (l : List Char) : List Char :=
  ((l.dropWhile isPyWs).reverse.dropWhile isPyWs).reverse

/-- Python `str.strip()`. -/
def pyStrip (s : String) : String := String.mk (pyStripL s.data)

def commaSep : List String → String
  | [] => ""
  | [s] => s
  | s :: s2 :: rest => s ++ ", " ++ commaSep (s2 :: rest)

/-- Decimal digits of a natural number, fuelled (fuel `n+1` always
suffices); matches Python `str(int)`. -/
def natReprAux : Nat → Nat → List Char
  | 0, _ => []
  | fuel+1, n =>
    if n < 10 then [Char.ofNat (48 + n)]
    else natReprAux fuel (n / 10) ++ [Char.ofNat (48 + n % 10)]

def natRepr (n : Nat) : String := String.mk (natReprAux (n + 1) n)

/-- Python `str()` of an integer. -/
def intRepr : Int → String
  | .ofNat m => natRepr m
  | .negSucc m => "-" ++ natRepr (m + 1)

/-- Python `repr()` of a `PyVal`, fuelled on nesting depth so that the
recursion through nested lists/dicts is structural (on the fuel). The fuel
used by `pyRepr` exceeds the depth of every value appearing in this
development; string escaping inside containers is elided, which no claim
depends on. -/
def pyReprD : Nat → PyVal → String
  | 0, _ => ""
  | fuel+1, v =>
    match v with
    | .pynone => "None"
    | .pybool true => "True"
    | .pybool false => "False"
    | .pyint n => intRepr n
    | .pystr s => "'" ++ s ++ "'"
    | .pylist xs => "[" ++ commaSep (xs.map (pyReprD fuel)) ++ "]"
    | .pydict kvs =>
      "\x7b" ++ commaSep (kvs.map (fun kv => "'" ++ kv.1 ++ "': " ++ pyReprD fuel kv.2)) ++ "\x7d"

def pyReprFuel : Nat := 1000000

def pyRepr (v : PyVal) : String := pyReprD pyReprFuel v

/-- Python `str()`: identity on strings, `repr` otherwise. -/
def pyStr : PyVal → String
  | .pystr s => s
  | v => pyRepr v

/-- Python `==` between a string and an arbitrary value: equal only when
the other value is the same string (no exception). -/
def pyEqStr (s : String) (v : PyVal) : Bool :=
  match v with
  | .pystr c => s == c
  | _ => false

/-- A value usable on the right of `now > v` (Python orders ints and bools;
anything else raises `TypeError`). -/
def pyAsNum : PyVal → Option Int
  | .pyint n => some n
  | .pybool b => some (if b then 1 else 0)
  | _ => none

/-- `json.dumps(v, sort_keys=True, ensure_ascii=False)`, fuelled like
`pyRepr`; string escaping elided (only reached by dead code, see
`stable_event_id`). -/
def pyJsonD : Nat → PyVal → String
  | 0, _ => ""
  | fuel+1, v =>
    match v with
    | .pynone => "null"
    | .pybool true => "true"
    | .pybool false => "false"
    | .pyint n => intRepr n
    | .pystr s => "\"" ++ s ++ "\""
    | .pylist xs => "[" ++ commaSep (xs.map (pyJsonD fuel)) ++ "]"
    | .pydict kvs =>
      "\x7b" ++
        commaSep ((kvs.mergeSort (fun a b => a.1 ≤ b.1)).map
          (fun kv => "\"" ++ kv.1 ++ "\": " ++ pyJsonD fuel kv.2)) ++ "\x7d"

def pyJsonDumpsSorted (v : PyVal) : String := pyJsonD pyReprFuel v

/-! ### SHA-256 (used by `stable_event_id` in `signal_inbound_collector.py`)

A direct executable implementation over byte lists, 32-bit words as `Nat`
reduced mod `2^32`. Verified against the standard test vectors during
development. -/

def w32 (n : Nat) : Nat := n % 4294967296

def rotr32 (k n : Nat) : Nat := w32 ((n >>> k) ||| (n <<< (32 - k)))

def shaS0 (x : Nat) : Nat := rotr32 7 x ^^^ rotr32 18 x ^^^ (x >>> 3)

def shaS1 (x : Nat) : Nat := rotr32 17 x ^^^ rotr32 19 x ^^^ (x >>> 10)

def shaB0 (x : Nat) : Nat := rotr32 2 x ^^^ rotr32 13 x ^^^ rotr32 22 x

def shaB1 (x : Nat) : Nat := rotr32 6 x ^^^ rotr32 11 x ^^^ rotr32 25 x

def shaK : List Nat :=
  [1116352408, 1899447441, 3049323471, 3921009573, 961987163, 1508970993,
   2453635748, 2870763221, 3624381080, 310598401, 607225278, 1426881987,
   1925078388, 2162078206, 2614888103, 3248222580, 3835390401, 4022224774,
   264347078, 604807628, 770255983, 1249150122, 1555081692, 1996064986,
   2554220882, 2821834349, 2952996808, 3210313671, 3336571891, 3584528711,
   113926993, 338241895, 666307205, 773529912, 1294757372, 1396182291,
   1695183700, 1986661051, 2177026350, 2456956037, 2730485921, 2820302411,
   3259730800, 3345764771, 3516065817, 3600352804, 4094571909, 275423344,
   430227734, 506948616, 659060556, 883997877, 958139571, 1322822218,
   1537002063, 1747873779, 1955562222, 2024104815, 2227730452, 2361852424,
   2428436474, 2756734187, 3204031479, 3329325298]

structure Sha8 where
  a : Nat
  b : Nat
  c : Nat
  d : Nat
  e : Nat
  f : Nat
  g : Nat
  h : Nat

def shaExtend : Nat → List Nat → List Nat
  | 0, ws => ws
  | k+1, ws =>
    let n := ws.length
    shaExtend k (ws ++ [w32 (shaS1 (ws.getD (n - 2) 0) + ws.getD (n - 7) 0 +
      shaS0 (ws.getD (n - 15) 0) + ws.getD (n - 16) 0)])

def shaRound (st : Sha8) (kw : Nat × Nat) : Sha8 :=
  let t1 := w32 (st.h + shaB1 st.e + ((st.e &&& st.f) ^^^ ((4294967295 - st.e) &&& st.g)) + kw.1 + kw.2)
  let t2 := w32 (shaB0 st.a + ((st.a &&& st.b) ^^^ (st.a &&& st.c) ^^^ (st.b &&& st.c)))
  ⟨w32 (t1 + t2), st.a, st.b, st.c, w32 (st.d + t1), st.e, st.f, st.g⟩

def bytesToWords : List Nat → List Nat
  | b0 :: b1 :: b2 :: b3 :: rest => (b0 * 16777216 + b1 * 65536 + b2 * 256 + b3) :: bytesToWords rest
  | _ => []

def shaCompress (h : Sha8) (block : List Nat) : Sha8 :=
  let ws := shaExtend 48 (bytesToWords block)
  let st := (shaK.zip ws).foldl shaRound h
  ⟨w32 (h.a + st.a), w32 (h.b + st.b), w32 (h.c + st.c), w32 (h.d + st.d),
   w32 (h.e + st.e), w32 (h.f + st.f), w32 (h.g + st.g), w32 (h.h + st.h)⟩

def shaBlocks : Nat → Sha8 → List Nat → Sha8
  | 0, h, _ => h
  | k+1, h, bytes => shaBlocks k (shaCompress h (bytes.take 64)) (bytes.drop 64)

def shaPad (msg : List Nat) : List Nat :=
  let len := msg.length
  let zeros := (64 - (len + 9) % 64) % 64
  let bitLen := len * 8
  msg ++ [128] ++ List.replicate zeros 0 ++
    [bitLen / 72057594037927936 % 256, bitLen / 281474976710656 % 256,
     bitLen / 1099511627776 % 256, bitLen / 4294967296 % 256,
     bitLen / 16777216 % 256, bitLen / 65536 % 256, bitLen / 256 % 256, bitLen % 256]

def hexChar (n : Nat) : Char := "0123456789abcdef".data.getD n '0'

def wordHex (w : Nat) : List Char :=
  [hexChar (w / 268435456 % 16), hexChar (w / 16777216 % 16), hexChar (w / 1048576 % 16),
   hexChar (w / 65536 % 16), hexChar (w / 4096 % 16), hexChar (w / 256 % 16),
   hexChar (w / 16 % 16), hexChar (w % 16)]

def sha256Init : Sha8 :=
  ⟨1779033703, 3144134277, 1013904242, 2773480762,
   1359893119, 2600822924, 528734635, 1541459225⟩

def sha256Bytes (msg : List Nat) : Sha8 :=
  let padded := shaPad msg
  shaBlocks (padded.length / 64) sha256Init padded

/-- `hashlib.sha256(bytes).hexdigest()`. -/
def sha256Hex (msg : List Nat) : String :=
  let h := sha256Bytes msg
  String.mk (wordHex h.a ++ wordHex h.b ++ wordHex h.c ++ wordHex h.d ++
    wordHex h.e ++ wordHex h.f ++ wordHex h.g ++ wordHex h.h)

/-- UTF-8 encoding of a character (`str.encode("utf-8")`, per character). -/
def charBytes (c : Char) : List Nat :=
  let n := c.toNat
  if n < 128 then [n]
  else if n < 2048 then [192 + n / 64, 128 + n % 64]
  else if n < 65536 then [224 + n / 4096, 128 + (n / 64) % 64, 128 + n % 64]
  else [240 + n / 262144, 128 + (n / 4096) % 64, 128 + (n / 64) % 64, 128 + n % 64]

/-- `s.encode("utf-8")` as a byte list. -/
def strBytes (s : String) : List Nat := s.data.flatMap charBytes

/-! ### Normalizer: `stable_event_id` (`signal_inbound_collector.py`)

```
def stable_event_id(raw_obj):
    src_id = str(raw_obj.get("source_message_id") or raw_obj.get("id") or "")
    ts = str(raw_obj.get("received_at") or raw_obj.get("timestamp") or int(time.time()))
    sender = str((raw_obj.get("sender") or {}).get("id") or raw_obj.get("sender_id") or "")
    text = str((raw_obj.get("message") or {}).get("text") or raw_obj.get("text") or "")
    seed = "|".join([src_id, ts, sender, text])
    if seed == "|||":
        seed = json.dumps(raw_obj, sort_keys=True, ensure_ascii=False)
    return hashlib.sha256(seed.encode("utf-8")).hexdigest()
```

`int(time.time())` becomes the explicit argument `now`. The `.get` calls on
`(raw_obj.get("sender") or {})` and `(raw_obj.get("message") or {})` raise
`AttributeError` when those fields hold a truthy non-dict. -/

def stable_event_seed (now : Int) (raw : List (String × PyVal)) : Except PyErr String :=
  let src_id := pyStr (pyOr (pyGetD raw "source_message_id") (pyOr (pyGetD raw "id") (.pystr "")))
  let ts := pyStr (pyOr (pyGetD raw "received_at") (pyOr (pyGetD raw "timestamp") (.pyint now)))
  match pyGetAttr (pyOr (pyGetD raw "sender") (.pydict [])) "id" with
  | .error e => .error e
  | .ok senderId =>
    let sender := pyStr (pyOr senderId (pyOr (pyGetD raw "sender_id") (.pystr "")))
    match pyGetAttr (pyOr (pyGetD raw "message") (.pydict [])) "text" with
    | .error e => .error e
    | .ok msgText =>
      let text := pyStr (pyOr msgText (pyOr (pyGetD raw "text") (.pystr "")))
      .ok (src_id ++ "|" ++ ts ++ "|" ++ sender ++ "|" ++ text)

def stable_event_id (now : Int) (raw : List (String × PyVal)) : Except PyErr String :=
  (stable_event_seed now raw).map (fun seed =>
    sha256Hex (strBytes (if seed = "|||" then pyJsonDumpsSorted (.pydict raw) else seed)))

/-! ### Event log and consumer offsets (`signal_event_store.py`)

The `signal_events` table is a `List Row` in rowid order; `id` is the
AUTOINCREMENT primary key, `event_id` carries a UNIQUE constraint. The
serialized `*_json` columns are kept as structured `PyVal` (a
`json.loads ∘ json.dumps` round trip is the identity on these values).
`consumer_offsets` is a list of `(consumer_name, last_event_rowid,
updated_at)` rows. -/

structure EventIn where
  event_id : String
  source : Option String
  account : PyVal
  received_at : Option Int
  source_message_id : PyVal
  chat : PyVal
  sender : PyVal
  message : PyVal
  attachments : PyVal
  raw : PyVal

structure Row where
  id : Nat
  event_id : String
  source : String
  account : PyVal
  received_at : Int
  source_message_id : PyVal
  chat : PyVal
  sender : PyVal
  message : PyVal
  attachments : PyVal
  raw : PyVal
  created_at : Int

def maxId (db : List Row) : Nat := db.foldr (fun r m => max r.id m) 0

/-- `publish_event`: INSERT with a UNIQUE constraint on `event_id`; an
`IntegrityError` (duplicate) is caught and reported as `false`, a
successful insert appends a fresh row with the next rowid and returns
`true`. -/
def publish_event (db : List Row) (e : EventIn) (now : Int) : List Row × Bool :=
  if db.any (fun r => r.event_id == e.event_id) then (db, false)
  else
    (db ++ [⟨maxId db + 1, e.event_id, e.source.getD "signal", e.account,
      e.received_at.getD now, e.source_message_id, e.chat, e.sender, e.message,
      e.attachments, e.raw, now⟩], true)

/-- One consumer-offset row: name, `last_event_rowid`, `updated_at`. -/
abbrev Offsets : Type := List (String × Nat × Int)

/-- `get_offset`: the stored `last_event_rowid`, defaulting to 0. -/
def get_offset (offs : Offsets) (name : String) : Nat :=
  match offs.find? (fun o => o.1 == name) with
  | some o => o.2.1
  | none => 0

/-- `set_offset`: upsert of `(name, rowid, now)`. -/
def set_offset (offs : Offsets) (name : String) (rowid : Nat) (now : Int) : Offsets :=
  if offs.any (fun o => o.1 == name) then
    offs.map (fun o => if o.1 == name then (name, rowid, now) else o)
  else offs ++ [(name, rowid, now)]

def insertById (r : Row) : List Row → List Row
  | [] => [r]
  | x :: xs => if r.id ≤ x.id then r :: x :: xs else x :: insertById r xs

/-- `ORDER BY id ASC` (insertion sort; rowids are distinct). -/
def sortById : List Row → List Row
  | [] => []
  | x :: xs => insertById x (sortById xs)

/-- `fetch_events`: `SELECT * FROM signal_events WHERE id > ? ORDER BY id
ASC LIMIT ?`. -/
def fetch_events (db : List Row) (after : Nat) (limit : Nat) : List Row :=
  (sortById (db.filter (fun r => after < r.id))).take limit

/-- The log invariant maintained by `publish_event`: rowids strictly
increase along the table. -/
abbrev IdsSorted (db : List Row) : Prop := List.Pairwise (fun r s => r.id < s.id) db

/-! ### Auth code manager (`auth_manager.py`)

`AUTH_FILE` contents are a `FileContent`: absent, unparsable JSON, or a
parsed JSON value. `load_state` returns `{}` for the first two. -/

inductive FileContent where
  | missing
  | invalid
  | parsed (v : PyVal)

/-- `PENDING_FILE.exists()` / `AUTH_FILE.exists()`. -/
def FileContent.existsB : FileContent → Bool
  | .missing => false
  | _ => true

def load_state : FileContent → PyVal
  | .missing => .pydict []
  | .invalid => .pydict []
  | .parsed v => v

def EXPIRY_SEC : Int := 300

/-- Zero-padded 4-digit rendering, `f"{n:04d}"` for `0 ≤ n ≤ 9999`. -/
def zpad4 (n : Nat) : String :=
  let s := natRepr n
  String.mk (List.replicate (4 - s.data.length) '0' ++ s.data)

/-- `generate()`: `rand` stands for `random.randint(0, 9999)`. Overwrites
any previous state unconditionally and returns the new file content and
the code. -/
def generate (rand : Nat) (now : Int) : FileContent × String :=
  let code := zpad4 (rand % 10000)
  (.parsed (.pydict [("code", .pystr code), ("expires_at", .pyint (now + EXPIRY_SEC))]), code)

/-- `validate(submitted_code)` over the stored auth state, returning the
new file content and the `(ok, message)` pair. Python raises
(`AttributeError`/`TypeError`) when the stored state is a truthy non-dict
or `expires_at` holds a non-number; those paths return `.error`. -/
def validate (now : Int) (submitted : String) (fc : FileContent) :
    Except PyErr (FileContent × Bool × String) :=
  let state := load_state fc
  if ¬ state.truthy then .ok (fc, false, "No active code.")
  else
    match state with
    | .pydict kvs =>
      match pyAsNum ((pyLookup kvs "expires_at").getD (.pyint 0)) with
      | none => .error .typeError
      | some expires =>
        if expires < now then .ok (fc, false, "Code expired.")
        else if pyEqStr (pyStrip submitted) ((pyLookup kvs "code").getD .pynone) then
          .ok (.parsed (.pydict []), true, "Code valid.")
        else .ok (fc, false, "Code mismatch.")
    | _ => .error .attributeError

/-! ### SigPro consumer (`signal_event_consumer_sigpro.py`)

External collaborators are modelled by an `Oracle`:

* `transcribeRead path` — the stripped-output contract of the
  transcription pipeline up to `out_path.read_text()`: `none` when the
  subprocess exits non-zero or the output file is missing, otherwise the
  file text (`_transcribe` then applies `.strip()` and `or None`);
* `genOut` — stdout of `auth_manager.py generate` (`none` = non-zero exit);
* `pathExists` — `Path(path).exists()` for attachment paths;
* `execResult` — the total result of `_execute_in_main` (that function
  degrades every collaborator failure to a fallback string, so it is
  modelled as an unconstrained total function of the transcript).

`_validate_code` invokes `auth_manager.py validate` as a subprocess, which
is the `validate` function above; a raise inside it becomes a non-zero
exit, which `_validate_code` maps to `(False, "Internal validation
error.")`. -/

structure Oracle where
  transcribeRead : String → Option String
  genOut : Option String
  pathExists : String → Bool
  execResult : String → String

def TARGET_USER : String := "+19412907826"

def VOICE_EXTENSIONS : List String :=
  [".m4a", ".opus", ".ogg", ".oga", ".aac", ".mp3", ".wav", ".webm"]

/-- `Path(s).name` (basename; paths here never end in a slash). -/
def pathName (s : String) : String :=
  String.mk ((s.data.reverse.takeWhile (fun c => c ≠ '/')).reverse)

/-- `Path(s).suffix`: the extension of the basename including the dot,
empty when the last dot is the first or last character of the name. -/
def pathSuffix (s : String) : String :=
  let cs := (pathName s).data
  match cs.reverse.indexOf? '.' with
  | none => ""
  | some r =>
    let i := cs.length - 1 - r
    if 0 < i ∧ 0 < r then String.mk (cs.drop i) else ""

def lowerStr (s : String) : String := String.mk (s.data.map Char.toLower)

/-- `str(s)[:n]` (Python slicing is by characters). -/
def strTake (n : Nat) (s : String) : String := String.mk (s.data.take n)

/-- `Path(v)`: ok on a string, `TypeError` otherwise. -/
def pyPathArg : PyVal → Except PyErr String
  | .pystr s => .ok s
  | _ => .error .typeError

/-- `re.fullmatch(r"\d\d\d\d", s)` (ASCII digits; the unicode digits
Python's `\d` also accepts never occur here). -/
def isFourDigits (s : String) : Bool :=
  s.data.length = 4 && s.data.all Char.isDigit

/-- `CODE_RE.match(text)` for `^\s*(\d\d\d\d)\s*$`: the match succeeds
exactly when the whitespace-stripped text is four digits, and the captured
group is that stripped text. -/
def codeMatch (s : String) : Option String :=
  let t := pyStrip s
  if isFourDigits t then some t else none

/-- `_transcribe`: subprocess/output-file failures are `none`; otherwise
the file text is stripped and an empty result becomes `None`. -/
def transcribeM (o : Oracle) (path : String) : Option String :=
  match o.transcribeRead path with
  | none => none
  | some text => let t := pyStrip text; if t = "" then none else some t

/-- `_generate_auth_code`: stdout is stripped and must be four digits. -/
def genCodeM (o : Oracle) : Option String :=
  match o.genOut with
  | none => none
  | some out => let c := pyStrip out; if isFourDigits c then some c else none

structure FailEntry where
  ts : Int
  reason : String
  code : Option String
  message_id : PyVal

structure SentMsg where
  channel : String
  target : String
  text : String

/-- The consumer-visible mutable state outside the SQLite store:
`pending_transcript.json`, the auth state file, `auth_failures.log`, and
the messages handed to the delivery collaborator. -/
structure SysState where
  pendingFile : FileContent
  authFile : FileContent
  failureLog : List FailEntry
  sentMessages : List SentMsg

/-- `_log_auth_failure`. -/
def logFail (st : SysState) (ts : Int) (reason : String) (code : Option String)
    (message_id : PyVal) : SysState :=
  { st with failureLog := st.failureLog ++ [⟨ts, reason, code, message_id⟩] }

/-- `_send_message` (delivery success/failure is ignored by all callers). -/
def sendMsg (st : SysState) (channel target text : String) : SysState :=
  { st with sentMessages := st.sentMessages ++ [⟨channel, target, text⟩] }

/-- `_store_pending_transcript` (consumer variant, with
`source_message_id`). -/
def storePending (st : SysState) (transcript : String) (source_file : PyVal)
    (source_message_id : PyVal) (now : Int) : SysState :=
  { st with pendingFile := .parsed (.pydict
      [("transcript", .pystr transcript), ("source_file", source_file),
       ("source_message_id", source_message_id),
       ("created_at", .pyint now), ("expires_in_sec", .pyint 300)]) }

def authCodeText (code : String) : String :=
  "SigPro Auth Code: " ++ code ++ " (Valid for 5 mins for your Signal voice request)"

def codePromptText : String :=
  "Voice request transcribed. Please enter the 4-digit code sent to your WhatsApp to authorize execution."

/-- The `for a in attachments` loop body of `handle_voice_event`. A
non-dict element raises `AttributeError` at `a.get("path")`; a truthy
non-string `path`/`filename` raises `TypeError` at `Path(...)`. -/
def voiceLoop (row : Row) (o : Oracle) (now : Int) (st : SysState) :
    List PyVal → Except PyErr SysState
  | [] => .ok st
  | a :: rest =>
    match a with
    | .pydict akvs =>
      let path := pyGetD akvs "path"
      let filename := pyOr (pyGetD akvs "filename") (.pystr "")
      match (if filename.truthy then pyPathArg filename else pyPathArg (pyOr path (.pystr ""))) with
      | .error e => .error e
      | .ok base =>
        let suffix := lowerStr (pathSuffix base)
        if ¬ VOICE_EXTENSIONS.contains suffix then voiceLoop row o now st rest
        else if ¬ path.truthy then voiceLoop row o now st rest
        else
          match pyPathArg path with
          | .error e => .error e
          | .ok p =>
            if ¬ o.pathExists p then voiceLoop row o now st rest
            else
              match transcribeM o p with
              | none => .ok st
              | some transcript =>
                match genCodeM o with
                | none => .ok (logFail st now "code_generation_failed" none row.source_message_id)
                | some code =>
                  .ok (sendMsg (sendMsg
                        (storePending st transcript (pyOr filename (.pystr (pathName p)))
                          row.source_message_id now)
                        "whatsapp" TARGET_USER (authCodeText code))
                      "signal" TARGET_USER codePromptText)
    | _ => .error .attributeError

/-- `handle_voice_event`: nothing to do on an empty/falsy attachments
value; a single pending request at a time (the voice event is dropped when
`PENDING_FILE` exists); otherwise scan the attachments. Iterating a truthy
non-list raises (`AttributeError` for the str/dict element cases,
`TypeError` for non-iterables). -/
def handle_voice_event (row : Row) (st : SysState) (o : Oracle) (now : Int) :
    Except PyErr SysState :=
  let attachments := row.attachments
  if ¬ attachments.truthy then .ok st
  else if st.pendingFile.existsB then .ok st
  else
    match attachments with
    | .pylist xs => voiceLoop row o now st xs
    | .pystr _ => .error .attributeError
    | .pydict _ => .error .attributeError
    | _ => .error .typeError

/-- The transcript retrieval inside `handle_code_event`:
`str(json.loads(PENDING_FILE.read_text()).get("transcript") or "").strip()`
with every exception (unreadable file, unparsable JSON, non-dict payload)
caught and turned into `""`. -/
def pendingTranscript : FileContent → String
  | .parsed (.pydict kvs) => pyStrip (pyStr (pyOr (pyGetD kvs "transcript") (.pystr "")))
  | _ => ""

/-- `_validate_code`: run `auth_manager.py validate` as a subprocess. An
exception inside `validate` is a non-zero exit, mapped to the internal
error message with the auth file untouched; otherwise the printed
`{ok, message}` pair is returned as-is (the messages are non-empty, so the
`or "Invalid code."` fallback never fires). -/
def validate_code_sub (fc : FileContent) (code : String) (now : Int) :
    FileContent × Bool × String :=
  match validate now code fc with
  | .error _ => (fc, false, "Internal validation error.")
  | .ok r => r

def execHeaderText : String := "✅ SigPro request authorized and executed\n\n🗣️ Request:\n"

def execMidText : String := "\n\n🤖 Assistant Output:\n"

/-- `handle_code_event`: only runs while a pending request exists; the
text must match the strict 4-digit pattern; on validation failure the
failure is logged and reported and the pending file is untouched; on
success with a missing/empty/unreadable transcript the pending file is
also left in place; otherwise execute, report, and delete the pending
file. -/
def handle_code_event (row : Row) (st : SysState) (o : Oracle) (now : Int) :
    Except PyErr SysState :=
  if ¬ st.pendingFile.existsB then .ok st
  else
    match row.message with
    | .pydict mkvs =>
      let text := pyStr (pyOr (pyGetD mkvs "text") (.pystr ""))
      match codeMatch text with
      | none => .ok st
      | some code =>
        let vres := validate_code_sub st.authFile code now
        let st1 := { st with authFile := vres.1 }
        if ¬ vres.2.1 then
          .ok (sendMsg (logFail st1 now vres.2.2 (some code) row.source_message_id)
            "signal" TARGET_USER ("Auth failed: " ++ vres.2.2))
        else
          let transcript := pendingTranscript st1.pendingFile
          if transcript = "" then
            .ok (sendMsg
              (logFail st1 now "pending_transcript_missing_or_invalid" (some code)
                row.source_message_id)
              "signal" TARGET_USER "Auth accepted, but no pending transcript was found.")
          else
            let summary := o.execResult transcript
            let formatted := strTake 3500
              (execHeaderText ++ strTake 500 transcript ++ execMidText ++ summary)
            .ok { (sendMsg st1 "signal" TARGET_USER formatted) with pendingFile := .missing }
    | _ => .error .attributeError

/-- `is_from_target_sender`: exact string match of the stripped sender id
against the configured user. -/
def is_from_target_sender (row : Row) : Except PyErr Bool :=
  match row.sender with
  | .pydict skvs =>
    .ok (pyStrip (pyStr (pyOr (pyGetD skvs "id") (.pystr ""))) == TARGET_USER)
  | _ => .error .attributeError

/-- The per-event loop of the consumer's `main`: events from other senders
only advance the offset; events from the target sender run the voice
handler, then the code handler, then advance the offset. An uncaught
exception kills the process, leaving the offsets and state written so
far. -/
def processRows (name : String) (o : Oracle) (now : Int) :
    List Row → Offsets → SysState → Offsets × SysState × Option PyErr
  | [], offs, st => (offs, st, none)
  | row :: rest, offs, st =>
    match is_from_target_sender row with
    | .error e => (offs, st, some e)
    | .ok false => processRows name o now rest (set_offset offs name row.id now) st
    | .ok true =>
      match handle_voice_event row st o now with
      | .error e => (offs, st, some e)
      | .ok st1 =>
        match handle_code_event row st1 o now with
        | .error e => (offs, st1, some e)
        | .ok st2 => processRows name o now rest (set_offset offs name row.id now) st2

/-- One consumer run (`main`): fetch a bounded batch after the stored
offset and process it in order. -/
def consumerRun (db : List Row) (name : String) (limit : Nat) (offs : Offsets)
    (st : SysState) (o : Oracle) (now : Int) : Offsets × SysState × Option PyErr :=
  processRows name o now (fetch_events db (get_offset offs name) limit) offs st

/-! ### Legacy loop (`sigpro_loop.py`): `_process_new_voice_note`

The attachment-directory scan `_find_newest_unprocessed_attachment` is
filesystem-driven and passed in as `voiceFile`; the focus is the workflow
of lines 149–174, which — unlike the consumer's `handle_voice_event` —
never checks whether `PENDING_FILE` already exists. -/

structure LoopState where
  pendingFile : FileContent
  lastAttachment : String
  failureLog : List FailEntry
  sentMessages : List SentMsg

def process_new_voice_note (voiceFile : Option String) (o : Oracle)
    (st : LoopState) (now : Int) : LoopState × Bool :=
  match voiceFile with
  | none => (st, false)
  | some f =>
    let transcript := transcribeM o f
    let st1 := { st with lastAttachment := pathName f }
    match transcript with
    | none => (st1, true)
    | some t =>
      match genCodeM o with
      | none =>
        ({ st1 with failureLog := st1.failureLog ++
            [⟨now, "code_generation_failed", none, .pynone⟩] }, true)
      | some code =>
        ({ st1 with
            pendingFile := .parsed (.pydict
              [("transcript", .pystr t), ("source_file", .pystr (pathName f)),
               ("created_at", .pyint now), ("expires_in_sec", .pyint 300)]),
            sentMessages := st1.sentMessages ++
              [⟨"whatsapp", TARGET_USER, authCodeText code⟩,
               ⟨"signal", TARGET_USER, codePromptText⟩] }, true)

/-! ### Collector incremental file mode (`signal_inbound_collector.py`)

The raw JSONL file is a `String` (the model equates byte offsets with
character positions; all inputs considered are ASCII). `json.loads` of an
individual line is supplied by the environment (`CollectorEnv`), since the
claims about the collector concern its control flow, not the JSON grammar.
The externally visible writes of one `main` pass in in-file mode are
recorded as a trace: the `write_offset` performed inside
`ingest_file_once`, followed by the `publish_event` calls of the batch
loop in `main`. -/

structure CollectorEnv where
  jsonParse : String → Option PyVal

/-- `int(s)` (optional sign and decimal digits). -/
def parsePyInt (s : String) : Option Int :=
  match s.data with
  | [] => none
  | '-' :: ds =>
    if ds.isEmpty || !ds.all Char.isDigit then none
    else some (-(ds.foldl (fun acc c => acc * 10 + (c.toNat - 48)) 0 : Nat))
  | '+' :: ds =>
    if ds.isEmpty || !ds.all Char.isDigit then none
    else some ((ds.foldl (fun acc c => acc * 10 + (c.toNat - 48)) 0 : Nat))
  | ds =>
    if !ds.all Char.isDigit then none
    else some ((ds.foldl (fun acc c => acc * 10 + (c.toNat - 48)) 0 : Nat))

/-- `read_offset`: `int(path.read_text().strip() or "0")` with any failure
(missing file, unparsable content) giving 0. -/
def read_offset (off : Option String) : Int :=
  match off with
  | none => 0
  | some s =>
    let t := pyStrip s
    (parsePyInt (if t = "" then "0" else t)).getD 0

/-- Split file content into the lines produced by iterating the file. -/
def splitLinesAux : List Char → List Char → List String
  | [], acc => [String.mk acc.reverse]
  | '\n' :: rest, acc => String.mk acc.reverse :: splitLinesAux rest []
  | c :: rest, acc => splitLinesAux rest (c :: acc)

def splitLines (s : String) : List String := splitLinesAux s.data []

/-- The per-line handling of `ingest_file_once`: strip, skip blanks, parse
JSON (failures are logged and skipped), keep only dict objects. -/
def parseLinesD (env : CollectorEnv) (s : String) : List PyVal :=
  (splitLines s).filterMap (fun raw =>
    let line := pyStrip raw
    if line = "" then none
    else
      match env.jsonParse line with
      | some (.pydict kvs) => some (.pydict kvs)
      | _ => none)

/-- `ingest_file_once(path, offset_path)`: re-validate the persisted byte
offset against the file size (restart from zero past a truncation), read
and parse everything from the offset to EOF, then write the new offset
(`f.tell()`, i.e. the file size) to the offset file, and return the batch.
Result: `((batch, new_offset), new offset-file content)`. -/
def ingest_file_once (env : CollectorEnv) (file : Option String) (off : Option String) :
    (List PyVal × Int) × Option String :=
  match file with
  | none => (([], read_offset off), off)
  | some content =>
    let offset0 := read_offset off
    let size : Int := (content.data.length : Int)
    let offset := if offset0 > size then 0 else offset0
    let out := parseLinesD env (String.mk (content.data.drop offset.toNat))
    ((out, size), some (intRepr size))

/-- Observable writes of the collector pass, in program order. -/
inductive CEvent where
  | offsetWrite (n : Nat)
  | publishRec (e : PyVal)

/-- The write trace of one non-follow in-file pass of `main`: the offset
write happens inside `ingest_file_once`, before the batch loop publishes
the records to the event log. -/
def collector_trace (env : CollectorEnv) (file : Option String) (off : Option String) :
    List CEvent :=
  let r := ingest_file_once env file off
  (match file with
   | none => []
   | some _ => [CEvent.offsetWrite r.1.2.toNat]) ++ r.1.1.map CEvent.publishRec

/-- The records contained in bytes `[lo, n)` of the raw file. -/
def recordsInRange (env : CollectorEnv) (content : String) (lo n : Nat) : List PyVal :=
  parseLinesD env (String.mk ((content.data.take n).drop lo))

/-- The records published strictly before position `i` of the trace. -/
def publishedBefore (trace : List CEvent) (i : Nat) : List PyVal :=
  (trace.take i).filterMap (fun ev =>
    match ev with
    | .publishRec e => some e
    | _ => none)

/-- The property claimed of the collector: whenever the offset file is
advanced to `n`, every record contained in the bytes up to `n` (starting
from the batch's start position `lo`) has already been appended to the
event log. -/
def offsetWriteSafe (env : CollectorEnv) (content : String) (lo : Nat)
    (trace : List CEvent) : Prop :=
  ∀ i n, trace.get? i = some (.offsetWrite n) →
    ∀ e ∈ recordsInRange env content lo n, e ∈ publishedBefore trace i

/-! ### Well-formedness of stored events, and specification predicates -/

/-- A value acceptable to `Path(...)` after an `or ""` guard: a string, or
falsy (replaced by `""`). -/
def pathOkB : PyVal → Bool
  | .pystr _ => true
  | v => !v.truthy

/-- An attachment entry the voice handler can process without raising: a
dict whose `path` and `filename` are strings or absent/falsy. -/
def wfAttachment : PyVal → Bool
  | .pydict kvs => pathOkB (pyGetD kvs "path") && pathOkB (pyGetD kvs "filename")
  | _ => false

/-- A stored event row the consumer's handlers can process without
raising: `sender` and `message` are dicts (as `normalize` always emits)
and `attachments` is a list of well-formed entries or falsy. `normalize`
does not enforce the attachment-entry part: arbitrary JSON lists pass
through it into the store. -/
def wfRow (r : Row) : Bool :=
  (match r.sender with
   | .pydict _ => true
   | _ => false) &&
  (match r.message with
   | .pydict _ => true
   | _ => false) &&
  (match r.attachments with
   | .pylist xs => xs.all wfAttachment
   | v => !v.truthy)

/-- What claim C7 asserts of `fetch`: exactly the events past the cursor,
in ascending rowid order matching insertion order, at most `limit` of
them, and deterministic on an unchanged log. -/
def fetchSpec (db : List Row) (after limit : Nat) : Prop :=
  (∀ r ∈ fetch_events db after limit, after < r.id ∧ r ∈ db) ∧
  (fetch_events db after limit).length ≤ limit ∧
  List.Pairwise (fun r s => r.id < s.id) (fetch_events db after limit) ∧
  (fetch_events db after limit).Sublist db ∧
  ((db.filter (fun r => after < r.id)).length ≤ limit →
    fetch_events db after limit = db.filter (fun r => after < r.id)) ∧
  fetch_events db after limit = fetch_events db after limit

/-- The auth state written by `generate`. -/
def authDict (c : String) (e : Int) : PyVal :=
  .pydict [("code", .pystr c), ("expires_at", .pyint e)]

/-! ### Concrete instances used by witnesses and counterexamples -/

def oracleW : Oracle :=
  ⟨fun _ => some "new request", some "1234", fun _ => true, fun _ => "done"⟩

def oracleNoop : Oracle := ⟨fun _ => none, none, fun _ => false, fun _ => ""⟩

def st0 : SysState := ⟨.missing, .missing, [], []⟩

def pendingOld : PyVal :=
  .pydict [("transcript", .pystr "old request"), ("source_file", .pystr "a.m4a"),
    ("created_at", .pyint 10), ("expires_in_sec", .pyint 300)]

def lst0 : LoopState := ⟨.parsed pendingOld, "a.m4a", [], []⟩

def stPending : SysState := ⟨.parsed pendingOld, .missing, [], []⟩

/-- A voice-bearing event from the authorized sender. -/
def rowVoice : Row :=
  ⟨1, "ev-voice", "signal", .pynone, 100, .pystr "m1", .pydict [],
    .pydict [("id", .pystr "+19412907826")],
    .pydict [("text", .pystr "")],
    .pylist [.pydict [("path", .pystr "/att/x.m4a"), ("filename", .pystr "x.m4a")]],
    .pydict [], 100⟩

/-- A voice-bearing event from an unauthorized sender. -/
def rowUnauth : Row :=
  ⟨1, "ev-unauth", "signal", .pynone, 100, .pystr "m2", .pydict [],
    .pydict [("id", .pystr "+1999")],
    .pydict [("text", .pystr "")],
    .pylist [.pydict [("path", .pystr "/att/x.m4a"), ("filename", .pystr "x.m4a")]],
    .pydict [], 100⟩

/-- An event from the authorized sender whose stored `attachments` array
holds a bare string — `normalize` passes such arrays through, and
`handle_voice_event` raises `AttributeError` at `a.get("path")` on it. -/
def rowBadAttach : Row :=
  ⟨1, "ev-bad", "signal", .pynone, 100, .pystr "m3", .pydict [],
    .pydict [("id", .pystr "+19412907826")],
    .pydict [("text", .pystr "")],
    .pylist [.pystr "x"],
    .pydict [], 100⟩

/-- A code-entry event (text `" 0451 "`) from the authorized sender. -/
def rowCode : Row :=
  ⟨2, "ev-code", "signal", .pynone, 101, .pystr "m4", .pydict [],
    .pydict [("id", .pystr "+19412907826")],
    .pydict [("text", .pystr " 0451 ")],
    .pylist [], .pydict [], 101⟩

def dbBad : List Row := [rowBadAttach, { rowCode with id := 2 }]

def dbSorted : List Row := [rowVoice, { rowCode with id := 2 }, { rowUnauth with id := 3, event_id := "ev-3" }]

def eventW : EventIn :=
  ⟨"dup-1", none, .pynone, none, .pynone, .pydict [], .pydict [],
    .pydict [], .pylist [], .pydict []⟩

def envC : CollectorEnv :=
  ⟨fun s => if s = "\x7b\"id\": \"1\"\x7d" then some (.pydict [("id", .pystr "1")]) else none⟩

def fileC : String := "\x7b\"id\": \"1\"\x7d\n"

/-! ### Basic lemmas -/

theorem string_mk_ne_empty {l : List Char} (h : l ≠ []) : String.mk l ≠ "" := by
  intro he
  exact h (by simpa using congrArg String.data he)

theorem append_left_ne_empty (a b : String) (ha : a ≠ "") : a ++ b ≠ "" := by
  intro h
  have hd : a.data ++ b.data = [] := by simpa [String.data_append] using congrArg String.data h
  have : a.data = [] := by
    rcases List.append_eq_nil.mp hd with ⟨h1, _⟩
    exact h1
  exact ha (by cases a; simp_all)

theorem natRepr_ne_empty (n : Nat) : natRepr n ≠ "" := by
  apply string_mk_ne_empty
  show natReprAux (n + 1) n ≠ []
  simp only [natReprAux]
  split <;> simp

theorem intRepr_ne_empty (n : Int) : intRepr n ≠ "" := by
  cases n with
  | ofNat m => exact natRepr_ne_empty m
  | negSucc m => exact append_left_ne_empty "-" _ (by decide)

theorem pyReprD_succ_list (fuel : Nat) (xs : List PyVal) :
    pyReprD (fuel + 1) (.pylist xs) = "[" ++ commaSep (xs.map (pyReprD fuel)) ++ "]" := rfl

theorem pyReprD_succ_dict (fuel : Nat) (kvs : List (String × PyVal)) :
    pyReprD (fuel + 1) (.pydict kvs) =
      "\x7b" ++ commaSep (kvs.map (fun kv => "'" ++ kv.1 ++ "': " ++ pyReprD fuel kv.2)) ++ "\x7d" := rfl

theorem truthy_pyStr_ne (v : PyVal) (h : v.truthy = true) : pyStr v ≠ "" := by
  cases v with
  | pynone => simp [PyVal.truthy] at h
  | pybool b =>
    cases b with
    | true => decide
    | false => simp [PyVal.truthy] at h
  | pyint n => exact intRepr_ne_empty n
  | pystr s => simpa [PyVal.truthy] using h
  | pylist xs =>
    have he : pyStr (.pylist xs) =
        "[" ++ (commaSep (xs.map (pyReprD 999999)) ++ "]") := by
      show pyReprD (999999 + 1) (.pylist xs) = _
      rw [pyReprD_succ_list]
      rw [String.append_assoc]
    rw [he]
    exact append_left_ne_empty _ _ (by decide)
  | pydict kvs =>
    have he : pyStr (.pydict kvs) =
        "\x7b" ++ (commaSep (kvs.map (fun kv => "'" ++ kv.1 ++ "': " ++ pyReprD 999999 kv.2)) ++ "\x7d") := by
      show pyReprD (999999 + 1) (.pydict kvs) = _
      rw [pyReprD_succ_dict]
      rw [String.append_assoc]
    rw [he]
    exact append_left_ne_empty _ _ (by decide)

theorem pyStr_or_int_ne (a b : PyVal) (n : Int) :
    pyStr (pyOr a (pyOr b (.pyint n))) ≠ "" := by
  by_cases ha : a.truthy
  · simpa [pyOr, ha] using truthy_pyStr_ne a ha
  · by_cases hb : b.truthy
    · simpa [pyOr, ha, hb] using truthy_pyStr_ne b hb
    · simpa [pyOr, ha, hb] using intRepr_ne_empty n

theorem pyOr_int_irrel (a b : PyVal) (h : (pyOr a b).truthy = true) (n1 n2 : Int) :
    pyOr a (pyOr b (.pyint n1)) = pyOr a (pyOr b (.pyint n2)) := by
  by_cases ha : a.truthy
  · simp [pyOr, ha]
  · have hb : b.truthy = true := by simpa [pyOr, ha] using h
    simp [pyOr, ha, hb]

/-! ### Claim C3: determinism of `stable_event_id` -/

theorem stable_event_seed_irrel (n1 n2 : Int) (raw : List (String × PyVal))
    (h : (pyOr (pyGetD raw "received_at") (pyGetD raw "timestamp")).truthy = true) :
    stable_event_seed n1 raw = stable_event_seed n2 raw := by
  unfold stable_event_seed
  rw [pyOr_int_irrel _ _ h n1 n2]

theorem stable_event_seed_ok_shape (now : Int) (raw : List (String × PyVal)) (s : String)
    (h : stable_event_seed now raw = .ok s) :
    ∃ a c d, s = a ++ "|" ++
      pyStr (pyOr (pyGetD raw "received_at") (pyOr (pyGetD raw "timestamp") (.pyint now))) ++
      "|" ++ c ++ "|" ++ d := by
  unfold stable_event_seed at h
  cases h1 : pyGetAttr (pyOr (pyGetD raw "sender") (.pydict [])) "id" with
  | error e => simp [h1] at h
  | ok senderId =>
    cases h2 : pyGetAttr (pyOr (pyGetD raw "message") (.pydict [])) "text" with
    | error e => simp [h1, h2] at h
    | ok msgText =>
      simp only [h1, h2] at h
      injection h with h
      exact ⟨pyStr (pyOr (pyGetD raw "source_message_id") (pyOr (pyGetD raw "id") (.pystr ""))),
        pyStr (pyOr senderId (pyOr (pyGetD raw "sender_id") (.pystr ""))),
        pyStr (pyOr msgText (pyOr (pyGetD raw "text") (.pystr ""))), h.symm⟩

theorem stable_event_seed_ne_fallback (now : Int) (raw : List (String × PyVal)) (s : String)
    (h : stable_event_seed now raw = .ok s) : s ≠ "|||" := by
  obtain ⟨a, c, d, hs⟩ := stable_event_seed_ok_shape now raw s h
  intro he
  rw [he] at hs
  have hts := pyStr_or_int_ne (pyGetD raw "received_at") (pyGetD raw "timestamp") now
  have hd := congrArg String.data hs
  simp only [String.data_append] at hd
  have hlen := congrArg List.length hd
  simp only [List.length_append] at hlen
  have hts' : (pyStr (pyOr (pyGetD raw "received_at") (pyOr (pyGetD raw "timestamp") (.pyint now)))).data ≠ [] := by
    intro hn
    apply hts
    cases hh : pyStr (pyOr (pyGetD raw "received_at") (pyOr (pyGetD raw "timestamp") (.pyint now)))
    simp_all
  have hpos : 0 < (pyStr (pyOr (pyGetD raw "received_at") (pyOr (pyGetD raw "timestamp") (.pyint now)))).length :=
    List.length_pos.mpr hts'
  simp at hlen
  omega

set_option maxRecDepth 1000000 in
/-- Claim C3, counterexample: `stable_event_id` is not a deterministic
function of the raw object alone. On the raw object `{}` (no
`received_at`, no `timestamp`), the seed embeds `int(time.time())`, so
two normalization runs at epoch seconds 1000 and 1001 produce different
event ids for the same raw object. -/
theorem C3_event_id_counterexample :
    stable_event_id 1000 [] =
      .ok "e296110bb6f558810f0bc77bc0ff5b7492c6db3022dced7ba132ddaa740d453c" ∧
    stable_event_id 1001 [] =
      .ok "faa2b81b2b6a855f2a6f474564b7274c2265bbd26fd608f55574b5a2c897df19" ∧
    ("e296110bb6f558810f0bc77bc0ff5b7492c6db3022dced7ba132ddaa740d453c" : String) ≠
      "faa2b81b2b6a855f2a6f474564b7274c2265bbd26fd608f55574b5a2c897df19" :=
  ⟨by rfl, by rfl, by decide⟩

/-- Claim C3, amended: the normalizer's `event_id` is deterministic only
for raw objects carrying a truthy `received_at` or `timestamp`; when both
are absent the current time enters the digest, so the id is
time-dependent. Moreover the whole-object fallback digest is unreachable:
the timestamp component of the seed is never empty (it falls back to
`str(int(time.time()))`), so the seed never equals `"|||"` even when all
four extracted components are empty. -/
theorem C3_event_id_amended :
    (∀ n1 n2 : Int, ∀ raw,
       (pyOr (pyGetD raw "received_at") (pyGetD raw "timestamp")).truthy = true →
       stable_event_id n1 raw = stable_event_id n2 raw) ∧
    (∀ now : Int, ∀ raw s, stable_event_seed now raw = .ok s → s ≠ "|||") :=
  ⟨fun n1 n2 raw h => by unfold stable_event_id; rw [stable_event_seed_irrel n1 n2 raw h],
   stable_event_seed_ne_fallback⟩

/-- Claim C3, witness: the amended determinism applied to a raw object
with `timestamp = 5` at two different times, and the fallback-avoidance
applied to the empty raw object at time 0 (seed `"|0||"`). -/
theorem C3_event_id_witness :
    (pyOr (pyGetD [("timestamp", PyVal.pyint 5)] "received_at")
        (pyGetD [("timestamp", PyVal.pyint 5)] "timestamp")).truthy = true ∧
    stable_event_id 1 [("timestamp", .pyint 5)] = stable_event_id 2 [("timestamp", .pyint 5)] ∧
    stable_event_seed 0 [] = .ok "|0||" ∧ ("|0||" : String) ≠ "|||" :=
  ⟨by decide, C3_event_id_amended.1 1 2 [("timestamp", .pyint 5)] (by decide),
   by rfl, C3_event_id_amended.2 0 [] "|0||" (by rfl)⟩

/-! ### Claims C2 and C9: the auth code manager -/

/-- Claim C2: `validate` fails with "No active code." when no code is
stored, with "Code expired." when `now > expires_at` (leaving the stored
state in place), with "Code mismatch." when the stripped submission
differs from the stored code (state untouched), and otherwise succeeds
and clears the stored state, after which an immediate retry with the same
code fails with "No active code." (one-time use). -/
theorem C2_validate_machine :
    (∀ fc, ∀ now : Int, ∀ sub, (load_state fc).truthy = false →
       validate now sub fc = .ok (fc, false, "No active code.")) ∧
    (∀ c, ∀ e now : Int, ∀ sub, e < now →
       validate now sub (.parsed (authDict c e)) = .ok (.parsed (authDict c e), false, "Code expired.")) ∧
    (∀ c, ∀ e now : Int, ∀ sub, ¬ e < now → pyStrip sub ≠ c →
       validate now sub (.parsed (authDict c e)) = .ok (.parsed (authDict c e), false, "Code mismatch.")) ∧
    (∀ c, ∀ e now : Int, ∀ sub, ¬ e < now → pyStrip sub = c →
       validate now sub (.parsed (authDict c e)) = .ok (.parsed (.pydict []), true, "Code valid.") ∧
       (∀ now2 : Int, ∀ sub2, validate now2 sub2 (.parsed (.pydict [])) =
          .ok (.parsed (.pydict []), false, "No active code."))) := by
  refine ⟨?_, ?_, ?_, ?_⟩
  · intro fc now sub h
    simp [validate, h]
  · intro c e now sub h
    simp [validate, load_state, authDict, PyVal.truthy, pyLookup, pyGetD, pyAsNum, h]
  · intro c e now sub h hne
    simp [validate, load_state, authDict, PyVal.truthy, pyLookup, pyGetD, pyAsNum, pyEqStr, h, hne]
  · intro c e now sub h heq
    constructor
    · simp [validate, load_state, authDict, PyVal.truthy, pyLookup, pyGetD, pyAsNum, pyEqStr, h, heq]
    · intro now2 sub2
      simp [validate, load_state, PyVal.truthy]

/-- Claim C2, witness: issue code "0451" at t = 1000 with TTL 300;
validate("0451") at t = 1200 succeeds and clears the state; repeating at
t = 1201 fails with "No active code.". -/
theorem C2_validate_scenario :
    generate 451 1000 = (.parsed (authDict "0451" 1300), "0451") ∧
    validate 1200 "0451" (.parsed (authDict "0451" 1300)) =
      .ok (.parsed (.pydict []), true, "Code valid.") ∧
    validate 1201 "0451" (.parsed (.pydict [])) =
      .ok (.parsed (.pydict []), false, "No active code.") :=
  ⟨by rfl,
   (C2_validate_machine.2.2.2 "0451" 1300 1200 "0451" (by decide) (by rfl)).1,
   (C2_validate_machine.2.2.2 "0451" 1300 1200 "0451" (by decide) (by rfl)).2 1201 "0451"⟩

/-- Claim C9: `validate` is total over a missing auth state file,
unparsable contents, and an empty JSON object: each behaves exactly like
an absent code — no exception, failure with "No active code.", and the
file is left untouched. -/
theorem C9_validate_total :
    ∀ now : Int, ∀ sub,
      validate now sub .missing = .ok (.missing, false, "No active code.") ∧
      validate now sub .invalid = .ok (.invalid, false, "No active code.") ∧
      validate now sub (.parsed (.pydict [])) =
        .ok (.parsed (.pydict []), false, "No active code.") := by
  intro now sub
  refine ⟨?_, ?_, ?_⟩ <;> simp [validate, load_state, PyVal.truthy]

/-! ### Claims C6 and C7: the event log -/

theorem mem_insertById {r x : Row} {l : List Row} : r ∈ insertById x l ↔ r = x ∨ r ∈ l := by
  induction l with
  | nil => simp [insertById]
  | cons y ys ih =>
    simp only [insertById]
    split
    · simp
    · simp only [List.mem_cons, ih]
      tauto

theorem mem_sortById {r : Row} {l : List Row} : r ∈ sortById l ↔ r ∈ l := by
  induction l with
  | nil => simp [sortById]
  | cons y ys ih => simp [sortById, mem_insertById, ih]

theorem insertById_eq_cons {x : Row} {l : List Row} (h : ∀ y ∈ l, x.id ≤ y.id) :
    insertById x l = x :: l := by
  cases l with
  | nil => rfl
  | cons y ys => simp [insertById, h y (by simp)]

theorem sortById_eq_self {l : List Row} (h : List.Pairwise (fun r s => r.id < s.id) l) :
    sortById l = l := by
  induction l with
  | nil => rfl
  | cons x xs ih =>
    rcases List.pairwise_cons.mp h with ⟨h1, h2⟩
    simp only [sortById]
    rw [ih h2]
    exact insertById_eq_cons (fun y hy => Nat.le_of_lt (h1 y hy))

theorem fetch_events_eq {db : List Row} {after limit : Nat} (h : IdsSorted db) :
    fetch_events db after limit = (db.filter (fun r => after < r.id)).take limit := by
  unfold fetch_events
  rw [sortById_eq_self (h.filter _)]

theorem mem_fetch {db : List Row} {after limit : Nat} {r : Row}
    (hr : r ∈ fetch_events db after limit) : after < r.id ∧ r ∈ db := by
  unfold fetch_events at hr
  have h1 := List.take_subset _ _ hr
  have h2 := mem_sortById.mp h1
  have h3 := List.mem_filter.mp h2
  exact ⟨by simpa using h3.2, h3.1⟩

/-- Claim C6: `append` is idempotent on `event_id`. When a row with the
same `event_id` is already stored, `publish_event` is a successful no-op
reporting duplicate (no error); when it is not, the insert succeeds, a
second append of the same event reports duplicate and leaves the log
unchanged, and exactly one row with that `event_id` is stored. -/
theorem C6_publish_idempotent :
    ∀ db e, ∀ now now2 : Int,
      ((∃ r ∈ db, r.event_id = e.event_id) → publish_event db e now = (db, false)) ∧
      ((∀ r ∈ db, r.event_id ≠ e.event_id) →
         (publish_event db e now).2 = true ∧
         publish_event (publish_event db e now).1 e now2 = ((publish_event db e now).1, false) ∧
         ((publish_event db e now).1.filter (fun r => r.event_id == e.event_id)).length = 1) := by
  intro db e now now2
  constructor
  · rintro ⟨r, hr, he⟩
    have hany : db.any (fun r => r.event_id == e.event_id) = true :=
      List.any_eq_true.mpr ⟨r, hr, by simp [he]⟩
    simp [publish_event, hany]
  · intro h
    have hany : db.any (fun r => r.event_id == e.event_id) = false := by
      rw [List.any_eq_false]
      intro r hr
      simpa using h r hr
    have hfil : db.filter (fun r => r.event_id == e.event_id) = [] := by
      rw [List.filter_eq_nil_iff]
      intro r hr
      simpa using h r hr
    refine ⟨by simp [publish_event, hany], ?_, ?_⟩
    · simp [publish_event, hany, List.any_append]
    · simp [publish_event, hany, List.filter_append, hfil]

/-- Claim C6, witness: appending a fresh event to the empty log inserts
it; the repeated append reports duplicate and leaves exactly one row. -/
theorem C6_publish_witness :
    (publish_event [] eventW 5).2 = true ∧
    publish_event (publish_event [] eventW 5).1 eventW 6 = ((publish_event [] eventW 5).1, false) ∧
    ((publish_event [] eventW 5).1.filter (fun r => r.event_id == eventW.event_id)).length = 1 :=
  (C6_publish_idempotent [] eventW 5 6).2 (by simp)

/-- Claim C7: on a log whose rowids increase in insertion order (the
invariant `publish_event` maintains), `fetch` returns exactly the events
with `seq > after_seq` — all of them when the limit does not truncate —
in strictly ascending `seq` order matching insertion order, with at most
`limit` results, and rerunning on an unchanged log is deterministic. -/
theorem C7_fetch_spec : ∀ db after limit, IdsSorted db → fetchSpec db after limit := by
  intro db after limit h
  have heq : fetch_events db after limit = (db.filter (fun r => after < r.id)).take limit :=
    fetch_events_eq h
  refine ⟨?_, ?_, ?_, ?_, ?_, rfl⟩
  · intro r hr
    exact mem_fetch hr
  · rw [heq]
    exact List.length_take_le _ _
  · rw [heq]
    exact List.Pairwise.sublist (List.take_sublist _ _) (h.filter _)
  · rw [heq]
    exact (List.take_sublist _ _).trans (List.filter_sublist _)
  · intro hlen
    rw [heq]
    exact List.take_of_length_le hlen

/-- Claim C7, witness: the fetch specification on a concrete three-row
log with cursor 1 and limit 2. -/
theorem C7_fetch_witness : IdsSorted dbSorted ∧ fetchSpec dbSorted 1 2 :=
  ⟨by decide, C7_fetch_spec dbSorted 1 2 (by decide)⟩

theorem find?_upsert_pos (name : String) (rid : Nat) (t : Int) :
    ∀ l : Offsets, l.any (fun o => o.1 == name) = true →
    (l.map (fun o => if o.1 == name then (name, rid, t) else o)).find? (fun o => o.1 == name) =
      some (name, rid, t) := by
  intro l
  induction l with
  | nil => simp
  | cons o os ih =>
    intro hany
    by_cases ho : o.1 = name
    · have hfo : (if (o.1 == name) = true then (name, rid, t) else o) = (name, rid, t) := by
        simp [ho]
      rw [List.map_cons, hfo, List.find?_cons_of_pos _ (by simp)]
    · have hfo : (if (o.1 == name) = true then (name, rid, t) else o) = o := by
        simp [ho]
      have hany' : os.any (fun o => o.1 == name) = true := by
        simpa [List.any_cons, ho] using hany
      rw [List.map_cons, hfo, List.find?_cons_of_neg _ (by simp [ho])]
      exact ih hany'

theorem find?_upsert_neg (name : String) (rid : Nat) (t : Int) :
    ∀ l : Offsets, l.any (fun o => o.1 == name) = false →
    (l ++ [(name, rid, t)]).find? (fun o => o.1 == name) = some (name, rid, t) := by
  intro l
  induction l with
  | nil =>
    intro _
    exact List.find?_cons_of_pos _ (by simp)
  | cons o os ih =>
    intro hany
    simp only [List.any_cons, Bool.or_eq_false_iff, beq_eq_false_iff_ne, ne_eq] at hany
    rw [List.cons_append, List.find?_cons_of_neg _ (by simpa using hany.1)]
    exact ih (by simpa using hany.2)

theorem get_set (offs : Offsets) (name : String) (rid : Nat) (t : Int) :
    get_offset (set_offset offs name rid t) name = rid := by
  unfold get_offset set_offset
  by_cases hany : offs.any (fun o => o.1 == name) = true
  · rw [if_pos hany, find?_upsert_pos name rid t offs hany]
  · rw [if_neg hany, find?_upsert_neg name rid t offs
      (by simp only [Bool.not_eq_true] at hany; exact hany)]

theorem getLastD_cons (a : Nat) (l : List Nat) (d : Nat) :
    (a :: l).getLast?.getD d = l.getLast?.getD a := by
  cases l with
  | nil => rfl
  | cons b bs =>
    rw [List.getLast?_cons_cons]
    cases h : (b :: bs).getLast? with
    | none => simp at h
    | some x => simp [h]

theorem processRows_nil (name : String) (o : Oracle) (now : Int) (offs : Offsets) (st : SysState) :
    processRows name o now [] offs st = (offs, st, none) := rfl

theorem processRows_cons_err_sender {row : Row} {e : PyErr} (name : String) (o : Oracle)
    (now : Int) (rest : List Row) (offs : Offsets) (st : SysState)
    (hs : is_from_target_sender row = .error e) :
    processRows name o now (row :: rest) offs st = (offs, st, some e) := by
  simp [processRows, hs]

theorem processRows_cons_skip {row : Row} (name : String) (o : Oracle) (now : Int)
    (rest : List Row) (offs : Offsets) (st : SysState)
    (hs : is_from_target_sender row = .ok false) :
    processRows name o now (row :: rest) offs st =
      processRows name o now rest (set_offset offs name row.id now) st := by
  simp [processRows, hs]

theorem processRows_cons_err_voice {row : Row} {e : PyErr} (name : String) (o : Oracle)
    (now : Int) (rest : List Row) (offs : Offsets) (st : SysState)
    (hs : is_from_target_sender row = .ok true)
    (hv : handle_voice_event row st o now = .error e) :
    processRows name o now (row :: rest) offs st = (offs, st, some e) := by
  simp [processRows, hs, hv]

theorem processRows_cons_err_code {row : Row} {st1 : SysState} {e : PyErr} (name : String)
    (o : Oracle) (now : Int) (rest : List Row) (offs : Offsets) (st : SysState)
    (hs : is_from_target_sender row = .ok true)
    (hv : handle_voice_event row st o now = .ok st1)
    (hc : handle_code_event row st1 o now = .error e) :
    processRows name o now (row :: rest) offs st = (offs, st1, some e) := by
  simp [processRows, hs, hv, hc]

theorem processRows_cons_go {row : Row} {st1 st2 : SysState} (name : String) (o : Oracle)
    (now : Int) (rest : List Row) (offs : Offsets) (st : SysState)
    (hs : is_from_target_sender row = .ok true)
    (hv : handle_voice_event row st o now = .ok st1)
    (hc : handle_code_event row st1 o now = .ok st2) :
    processRows name o now (row :: rest) offs st =
      processRows name o now rest (set_offset offs name row.id now) st2 := by
  simp [processRows, hs, hv, hc]

theorem processRows_err_none (name : String) (o : Oracle) (now : Int) :
    ∀ rows offs st, (processRows name o now rows offs st).2.2 = none →
      get_offset (processRows name o now rows offs st).1 name =
        ((rows.map (fun r => r.id)).getLast?.getD (get_offset offs name)) := by
  intro rows
  induction rows with
  | nil => intro offs st _; simp [processRows_nil]
  | cons row rest ih =>
    intro offs st h
    cases hs : is_from_target_sender row with
    | error e =>
      rw [processRows_cons_err_sender name o now rest offs st hs] at h
      simp at h
    | ok b =>
      cases b with
      | false =>
        rw [processRows_cons_skip name o now rest offs st hs] at h ⊢
        rw [List.map_cons, getLastD_cons, ih (set_offset offs name row.id now) st h,
          get_set]
      | true =>
        cases hv : handle_voice_event row st o now with
        | error e =>
          rw [processRows_cons_err_voice name o now rest offs st hs hv] at h
          simp at h
        | ok st1 =>
          cases hc : handle_code_event row st1 o now with
          | error e =>
            rw [processRows_cons_err_code name o now rest offs st hs hv hc] at h
            simp at h
          | ok st2 =>
            rw [processRows_cons_go name o now rest offs st hs hv hc] at h ⊢
            rw [List.map_cons, getLastD_cons, ih (set_offset offs name row.id now) st2 h,
              get_set]

theorem processRows_mono (name : String) (o : Oracle) (now : Int) :
    ∀ rows offs st,
      get_offset (processRows name o now rows offs st).1 name = get_offset offs name ∨
      ∃ r ∈ rows, get_offset (processRows name o now rows offs st).1 name = r.id := by
  intro rows
  induction rows with
  | nil => intro offs st; left; simp [processRows_nil]
  | cons row rest ih =>
    intro offs st
    cases hs : is_from_target_sender row with
    | error e =>
      left
      rw [processRows_cons_err_sender name o now rest offs st hs]
    | ok b =>
      cases b with
      | false =>
        rw [processRows_cons_skip name o now rest offs st hs]
        rcases ih (set_offset offs name row.id now) st with h | ⟨r, hr, he⟩
        · right
          exact ⟨row, by simp, by rw [h, get_set]⟩
        · right
          exact ⟨r, by simp [hr], he⟩
      | true =>
        cases hv : handle_voice_event row st o now with
        | error e =>
          left
          rw [processRows_cons_err_voice name o now rest offs st hs hv]
        | ok st1 =>
          cases hc : handle_code_event row st1 o now with
          | error e =>
            left
            rw [processRows_cons_err_code name o now rest offs st hs hv hc]
          | ok st2 =>
            rw [processRows_cons_go name o now rest offs st hs hv hc]
            rcases ih (set_offset offs name row.id now) st2 with h | ⟨r, hr, he⟩
            · right
              exact ⟨row, by simp, by rw [h, get_set]⟩
            · right
              exact ⟨r, by simp [hr], he⟩

/-- Claim C8: after a consumer run that completes, the stored offset
equals the rowid of the last event returned by `fetch` (unchanged when the
batch is empty); the offset never decreases across a run, completed or
crashed; and an event from an unauthorized sender runs no handler — the
state is untouched, no PendingRequest is created — yet the offset still
advances past it. -/
theorem C8_offset_monotonic :
    ∀ db name limit offs st o, ∀ now : Int,
      ((consumerRun db name limit offs st o now).2.2 = none →
         get_offset (consumerRun db name limit offs st o now).1 name =
           ((fetch_events db (get_offset offs name) limit).map (fun r => r.id)).getLast?.getD
             (get_offset offs name)) ∧
      get_offset offs name ≤ get_offset (consumerRun db name limit offs st o now).1 name ∧
      (∀ row offs0 st0, is_from_target_sender row = .ok false →
         processRows name o now [row] offs0 st0 = (set_offset offs0 name row.id now, st0, none)) := by
  intro db name limit offs st o now
  refine ⟨?_, ?_, ?_⟩
  · intro h
    exact processRows_err_none name o now _ offs st h
  · rcases processRows_mono name o now (fetch_events db (get_offset offs name) limit) offs st
      with h | ⟨r, hr, he⟩
    · rw [consumerRun, h]
    · rw [consumerRun, he]
      exact Nat.le_of_lt (mem_fetch hr).1
  · intro row offs0 st0 h
    rw [processRows_cons_skip name o now [] offs0 st0 h, processRows_nil]

/-- Claim C8, witness: a voice attachment from unauthorized sender
"+1999" — no handler runs, the state (and so the absent PendingRequest
slot) is untouched, and the offset advances to the event's rowid. -/
theorem C8_offset_witness :
    get_offset (consumerRun [rowUnauth] "sigpro-main" 100 [] st0 oracleNoop 7).1 "sigpro-main" =
      ((fetch_events [rowUnauth] (get_offset [] "sigpro-main") 100).map (fun r => r.id)).getLast?.getD
        (get_offset [] "sigpro-main") ∧
    get_offset [] "sigpro-main" ≤
      get_offset (consumerRun [rowUnauth] "sigpro-main" 100 [] st0 oracleNoop 7).1 "sigpro-main" ∧
    processRows "sigpro-main" oracleNoop 7 [rowUnauth] [] st0 =
      (set_offset [] "sigpro-main" 1 7, st0, none) :=
  ⟨(C8_offset_monotonic [rowUnauth] "sigpro-main" 100 [] st0 oracleNoop 7).1 (by rfl),
   (C8_offset_monotonic [rowUnauth] "sigpro-main" 100 [] st0 oracleNoop 7).2.1,
   (C8_offset_monotonic [rowUnauth] "sigpro-main" 100 [] st0 oracleNoop 7).2.2 rowUnauth [] st0 (by rfl)⟩

/-! ### Claim C1: the single-pending invariant -/

/-- Claim C1, counterexample: the legacy loop's `_process_new_voice_note`
(cited by the claim alongside the consumer handler) has no
pending-request guard: with a PendingRequest holding transcript
"old request" already stored, processing a new voice note replaces it
with a request for the new transcript instead of dropping the voice
event. -/
theorem C1_single_pending_counterexample :
    pendingTranscript lst0.pendingFile = "old request" ∧
    lst0.pendingFile.existsB = true ∧
    pendingTranscript (process_new_voice_note (some "/att/b.m4a") oracleW lst0 99).1.pendingFile =
      "new request" :=
  ⟨by rfl, by rfl, by rfl⟩

/-- Claim C1, amended: in the event-log consumer, `handle_voice_event`
with an existing PendingRequest leaves the state entirely unchanged (the
voice event is dropped, so at most one PendingRequest ever exists through
that path); the legacy `_process_new_voice_note` has no such guard and,
whenever transcription and code generation succeed, unconditionally
overwrites the pending slot with the new transcript — still a single
PendingRequest system-wide, but the existing one is replaced rather than
preserved. -/
theorem C1_single_pending_amended :
    (∀ row st o, ∀ now : Int, st.pendingFile.existsB = true →
       handle_voice_event row st o now = .ok st) ∧
    (∀ f o st, ∀ now : Int, ∀ t code, transcribeM o f = some t → genCodeM o = some code →
       (process_new_voice_note (some f) o st now).1.pendingFile =
         .parsed (.pydict [("transcript", .pystr t), ("source_file", .pystr (pathName f)),
           ("created_at", .pyint now), ("expires_in_sec", .pyint 300)])) := by
  constructor
  · intro row st o now h
    unfold handle_voice_event
    by_cases hat : row.attachments.truthy = true
    · simp [hat, h]
    · simp [hat]
  · intro f o st now t code ht hc
    simp [process_new_voice_note, ht, hc]

/-- Claim C1, witness: the consumer drops a voice event while
`stPending` holds a PendingRequest; the legacy loop overwrite at a
concrete input. -/
theorem C1_single_pending_witness :
    stPending.pendingFile.existsB = true ∧
    handle_voice_event rowVoice stPending oracleW 50 = .ok stPending ∧
    transcribeM oracleW "/att/b.m4a" = some "new request" ∧
    genCodeM oracleW = some "1234" ∧
    (process_new_voice_note (some "/att/b.m4a") oracleW lst0 99).1.pendingFile =
      .parsed (.pydict [("transcript", .pystr "new request"), ("source_file", .pystr "b.m4a"),
        ("created_at", .pyint 99), ("expires_in_sec", .pyint 300)]) :=
  ⟨by rfl, C1_single_pending_amended.1 rowVoice stPending oracleW 50 (by rfl),
   by rfl, by rfl,
   C1_single_pending_amended.2 "/att/b.m4a" oracleW lst0 99 "new request" "1234" (by rfl) (by rfl)⟩

/-! ### Claim C4: collector offset-write ordering -/

/-- Claim C4, counterexample: on a one-record file, the collector's write
trace starts with the offset write (to EOF, byte 12) with no record yet
appended — the offset file is advanced past bytes whose records have not
been appended to the event log, so the claimed ordering is violated. -/
theorem C4_offset_order_counterexample :
    ¬ offsetWriteSafe envC fileC 0 (collector_trace envC (some fileC) none) := by
  intro h
  have h0 : (collector_trace envC (some fileC) none).get? 0 = some (.offsetWrite 12) := by rfl
  have hmem : (PyVal.pydict [("id", .pystr "1")]) ∈ recordsInRange envC fileC 0 12 := by
    show (PyVal.pydict [("id", .pystr "1")]) ∈ [PyVal.pydict [("id", .pystr "1")]]
    exact List.mem_singleton.mpr rfl
  have hempty := h 0 12 h0 _ hmem
  simp [publishedBefore] at hempty

/-- Claim C4, amended: in the collector's incremental file mode, the
offset file is written exactly once per pass — after the bytes have been
fully read and parsed, but before the batch is appended to the event log:
the trace is the offset write (to EOF) followed by the appends. A crash
between the offset write and the appends therefore loses the records of
the tail (rather than re-reading it), whenever the tail parses to at
least one record. -/
theorem C4_offset_order_amended :
    ∀ env content off,
      (collector_trace env (some content) off =
        CEvent.offsetWrite content.data.length ::
          ((ingest_file_once env (some content) off).1.1).map CEvent.publishRec) ∧
      ((ingest_file_once env (some content) off).2 = some (intRepr (content.data.length : Int))) ∧
      ((ingest_file_once env (some content) off).1.1 ≠ [] →
        ¬ offsetWriteSafe env content
          (if read_offset off > (content.data.length : Int) then 0 else read_offset off).toNat
          (collector_trace env (some content) off)) := by
  intro env content off
  have htr : collector_trace env (some content) off =
      CEvent.offsetWrite content.data.length ::
        ((ingest_file_once env (some content) off).1.1).map CEvent.publishRec := by
    simp [collector_trace, ingest_file_once]
  refine ⟨htr, by simp [ingest_file_once], ?_⟩
  intro hne hsafe
  have h0 : (collector_trace env (some content) off).get? 0 =
      some (.offsetWrite content.data.length) := by
    rw [htr]; rfl
  have hrec : recordsInRange env content
      (if read_offset off > (content.data.length : Int) then 0 else read_offset off).toNat
      content.data.length = (ingest_file_once env (some content) off).1.1 := by
    have htk : List.take content.data.length content.data = content.data :=
      List.take_length content.data
    simp only [recordsInRange, ingest_file_once]
    rw [htk]
  obtain ⟨e, he⟩ := List.exists_mem_of_ne_nil _ hne
  have := hsafe 0 content.data.length h0 e (by rw [hrec]; exact he)
  simp [publishedBefore] at this

/-- Claim C4, witness: the write-before-append trace on a concrete
one-record file. -/
theorem C4_offset_order_witness :
    (ingest_file_once envC (some fileC) none).1.1 ≠ [] ∧
    ¬ offsetWriteSafe envC fileC 0 (collector_trace envC (some fileC) none) := by
  have hne : (ingest_file_once envC (some fileC) none).1.1 ≠ [] := by
    show ([PyVal.pydict [("id", .pystr "1")]] : List PyVal) ≠ []
    simp
  exact ⟨hne, (C4_offset_order_amended envC fileC none).2.2 hne⟩

/-! ### Claim C5: the per-event loop and handler failures -/

theorem pathOk_truthy {v : PyVal} (h : pathOkB v = true) (ht : v.truthy = true) :
    ∃ s, v = .pystr s ∧ s ≠ "" := by
  cases v with
  | pystr s => exact ⟨s, rfl, by simpa [PyVal.truthy] using ht⟩
  | pynone => simp [PyVal.truthy] at ht
  | pybool b =>
    simp [pathOkB, PyVal.truthy] at h
    simp [PyVal.truthy, h] at ht
  | pyint n =>
    simp [pathOkB, PyVal.truthy] at h
    simp [PyVal.truthy, h] at ht
  | pylist xs =>
    simp [pathOkB, PyVal.truthy] at h
    simp [PyVal.truthy, h] at ht
  | pydict kvs =>
    simp [pathOkB, PyVal.truthy] at h
    simp [PyVal.truthy, h] at ht

theorem pathOk_pyPathArg {v : PyVal} (h : pathOkB v = true) :
    ∃ s, pyPathArg (pyOr v (.pystr "")) = .ok s := by
  by_cases ht : v.truthy = true
  · obtain ⟨s, rfl, hs⟩ := pathOk_truthy h ht
    exact ⟨s, by simp [pyOr, ht, pyPathArg]⟩
  · exact ⟨"", by simp [pyOr, ht, pyPathArg]⟩

theorem suffix_arg_ok {g p : PyVal} (hg : pathOkB g = true) (hp : pathOkB p = true) :
    ∃ base, (if (pyOr g (.pystr "")).truthy = true
        then pyPathArg (pyOr g (.pystr ""))
        else pyPathArg (pyOr p (.pystr ""))) = .ok base := by
  by_cases ht : (pyOr g (.pystr "")).truthy = true
  · rw [if_pos ht]
    exact pathOk_pyPathArg hg
  · rw [if_neg ht]
    exact pathOk_pyPathArg hp

theorem voiceLoop_ok (row : Row) (o : Oracle) (now : Int) :
    ∀ xs st, xs.all wfAttachment = true → ∃ st', voiceLoop row o now st xs = .ok st' := by
  intro xs
  induction xs with
  | nil => exact fun st _ => ⟨st, rfl⟩
  | cons a rest ih =>
    intro st hall
    simp only [List.all_cons, Bool.and_eq_true] at hall
    obtain ⟨ha, hrest⟩ := hall
    cases a with
    | pydict akvs =>
      simp only [wfAttachment, Bool.and_eq_true] at ha
      obtain ⟨hpath, hfile⟩ := ha
      simp only [voiceLoop]
      obtain ⟨base, hbase⟩ := suffix_arg_ok hfile hpath
      rw [hbase]
      dsimp only
      split
      · exact ih st hrest
      · split
        · exact ih st hrest
        · rename_i h1 hpt
          have hpt' : (pyGetD akvs "path").truthy = true := of_not_not hpt
          obtain ⟨s, hps, _⟩ := pathOk_truthy hpath hpt'
          rw [hps]
          dsimp only [pyPathArg]
          split
          · exact ih st hrest
          · cases transcribeM o s with
            | none => exact ⟨st, rfl⟩
            | some t =>
              cases genCodeM o with
              | none => exact ⟨_, rfl⟩
              | some code => exact ⟨_, rfl⟩
    | pynone => simp [wfAttachment] at ha
    | pybool b => simp [wfAttachment] at ha
    | pyint n => simp [wfAttachment] at ha
    | pystr str => simp [wfAttachment] at ha
    | pylist ys => simp [wfAttachment] at ha

theorem wfRow_parts {r : Row} (h : wfRow r = true) :
    (∃ skvs, r.sender = .pydict skvs) ∧ (∃ mkvs, r.message = .pydict mkvs) ∧
    ((∃ xs, r.attachments = .pylist xs ∧ xs.all wfAttachment = true) ∨
      r.attachments.truthy = false) := by
  simp only [wfRow, Bool.and_eq_true] at h
  obtain ⟨⟨h1, h2⟩, h3⟩ := h
  refine ⟨?_, ?_, ?_⟩
  · cases hs : r.sender <;> rw [hs] at h1 <;> simp_all
  · cases hm : r.message <;> rw [hm] at h2 <;> simp_all
  · cases hc : r.attachments <;> rw [hc] at h3
    case pylist xs => exact Or.inl ⟨xs, rfl, h3⟩
    all_goals exact Or.inr (by simp_all [PyVal.truthy])

theorem is_target_ok {r : Row} {skvs : List (String × PyVal)} (hs : r.sender = .pydict skvs) :
    ∃ b, is_from_target_sender r = .ok b :=
  ⟨_, by unfold is_from_target_sender; rw [hs]⟩

theorem handle_voice_ok (row : Row) (st : SysState) (o : Oracle) (now : Int)
    (h : wfRow row = true) : ∃ st', handle_voice_event row st o now = .ok st' := by
  obtain ⟨_, _, hatt⟩ := wfRow_parts h
  unfold handle_voice_event
  by_cases ht : row.attachments.truthy = true
  · rcases hatt with ⟨xs, hxs, hall⟩ | hft
    · by_cases hp : st.pendingFile.existsB = true
      · exact ⟨st, by simp [ht, hp]⟩
      · obtain ⟨st', hv⟩ := voiceLoop_ok row o now xs st hall
        rw [hxs] at ht
        exact ⟨st', by simp [ht, hp, hxs, hv]⟩
    · rw [hft] at ht
      simp at ht
  · exact ⟨st, by simp [ht]⟩

theorem handle_code_ok (row : Row) (st : SysState) (o : Oracle) (now : Int)
    {mkvs : List (String × PyVal)} (hm : row.message = .pydict mkvs) :
    ∃ st', handle_code_event row st o now = .ok st' := by
  unfold handle_code_event
  by_cases hp : st.pendingFile.existsB = true
  · simp only [hp, not_true_eq_false, if_false, hm]
    cases codeMatch (pyStr (pyOr (pyGetD mkvs "text") (.pystr ""))) with
    | none => exact ⟨st, rfl⟩
    | some code =>
      dsimp only
      split
      · exact ⟨_, rfl⟩
      · split
        · exact ⟨_, rfl⟩
        · exact ⟨_, rfl⟩
  · exact ⟨st, by simp [hp]⟩

/-- Claim C5, amended: inside the handlers, every collaborator invocation
failure (non-zero exit, unparsable or empty output) is converted to an
in-band value, so for batches of well-formed stored events — `sender` and
`message` dicts, attachment entries dicts with string-or-absent
`path`/`filename` — the per-event loop processes the whole batch without
aborting, for every oracle behaviour. The loop itself has no exception
guard, so this fails for reachable ill-formed attachment entries (see the
counterexample). -/
theorem C5_no_batch_abort :
    ∀ name o, ∀ now : Int, ∀ rows offs st, rows.all wfRow = true →
      (processRows name o now rows offs st).2.2 = none := by
  intro name o now rows
  induction rows with
  | nil => intro offs st _; simp [processRows_nil]
  | cons row rest ih =>
    intro offs st hall
    simp only [List.all_cons, Bool.and_eq_true] at hall
    obtain ⟨hrow, hrest⟩ := hall
    obtain ⟨⟨skvs, hsend⟩, ⟨mkvs, hmsg⟩, _⟩ := wfRow_parts hrow
    obtain ⟨b, hb⟩ := is_target_ok hsend
    cases b with
    | false =>
      rw [processRows_cons_skip name o now rest offs st hb]
      exact ih _ _ hrest
    | true =>
      obtain ⟨st1, hv⟩ := handle_voice_ok row st o now hrow
      obtain ⟨st2, hc⟩ := handle_code_ok row st1 o now hmsg
      rw [processRows_cons_go name o now rest offs st hb hv hc]
      exact ih _ _ hrest

/-- Claim C5, counterexample: a stored event from the authorized sender
whose `attachments` array holds a bare string (which `normalize` passes
through into the store) makes `handle_voice_event` raise
`AttributeError`; the uncaught exception aborts the whole batch — the
second fetched event is never processed and the offset is never
advanced — refuting the claim that one event's handler failure cannot
abort the remaining batch. -/
theorem C5_batch_abort_counterexample :
    (fetch_events dbBad (get_offset [] "sigpro-main") 100).length = 2 ∧
    consumerRun dbBad "sigpro-main" 100 [] st0 oracleNoop 0 =
      ([], st0, some .attributeError) :=
  ⟨by rfl, by rfl⟩

/-- Claim C5, witness: a well-formed two-event batch processed to
completion under an oracle whose collaborators all fail. -/
theorem C5_no_batch_abort_witness :
    [rowVoice, { rowCode with id := 2 }].all wfRow = true ∧
    (processRows "sigpro-main" oracleNoop 3 [rowVoice, { rowCode with id := 2 }] [] st0).2.2 =
      none :=
  ⟨by rfl, C5_no_batch_abort "sigpro-main" oracleNoop 3 [rowVoice, { rowCode with id := 2 }] [] st0 (by rfl)⟩

/-! ### Claim C10: authorization consumed against an orphaned pending request -/

theorem dropWhile_eq_self_of_forall {p : Char → Bool} {l : List Char}
    (h : ∀ x ∈ l, p x = false) : l.dropWhile p = l := by
  cases l with
  | nil => rfl
  | cons c cs =>
    rw [List.dropWhile_cons]
    simp [h c (by simp)]

theorem pyStripL_eq_self {l : List Char} (h : ∀ x ∈ l, isPyWs x = false) : pyStripL l = l := by
  unfold pyStripL
  rw [dropWhile_eq_self_of_forall h]
  rw [dropWhile_eq_self_of_forall (fun x hx => h x (List.mem_reverse.mp hx))]
  exact List.reverse_reverse l

theorem ws_not_digit {x : Char} (h : isPyWs x = true) : x.isDigit = false := by
  simp only [isPyWs, Bool.or_eq_true, decide_eq_true_eq] at h
  rcases h with ((((h | h) | h) | h) | h) | h <;> subst h <;> decide

theorem digit_not_ws {x : Char} (h : x.isDigit = true) : isPyWs x = false := by
  rcases Bool.eq_false_or_eq_true (isPyWs x) with ht | hf
  · rw [ws_not_digit ht] at h
    simp at h
  · exact hf

theorem fourDigits_strip {c : String} (h : isFourDigits c = true) : pyStrip c = c := by
  simp only [isFourDigits, Bool.and_eq_true, decide_eq_true_eq] at h
  obtain ⟨_, hdig⟩ := h
  have hns : ∀ x ∈ c.data, isPyWs x = false :=
    fun x hx => digit_not_ws (List.all_eq_true.mp hdig x hx)
  unfold pyStrip
  rw [pyStripL_eq_self hns]

theorem codeMatch_some {s c : String} (h : codeMatch s = some c) :
    isFourDigits c = true ∧ pyStrip s = c := by
  unfold codeMatch at h
  by_cases hd : isFourDigits (pyStrip s) = true
  · rw [if_pos hd] at h
    injection h with h
    subst h
    exact ⟨hd, rfl⟩
  · rw [if_neg hd] at h
    cases h

/-- Claim C10: when code validation succeeds but the stored
PendingRequest has a missing, empty, or unreadable transcript, the
code-entry handler logs and reports the failure and returns with the
pending file left in place (the record update keeps `pendingFile`
untouched), while the auth state has already been cleared by the
successful validation — so any further `validate` call fails with "No
active code." until a new code is issued. -/
theorem C10_orphaned_pending :
    ∀ row st o, ∀ now : Int, ∀ c, ∀ e : Int, ∀ mkvs,
      st.pendingFile.existsB = true →
      pendingTranscript st.pendingFile = "" →
      st.authFile = .parsed (authDict c e) →
      ¬ e < now →
      row.message = .pydict mkvs →
      codeMatch (pyStr (pyOr (pyGetD mkvs "text") (.pystr ""))) = some c →
      (handle_code_event row st o now = .ok
        { st with
          authFile := .parsed (.pydict [])
          failureLog := st.failureLog ++
            [⟨now, "pending_transcript_missing_or_invalid", some c, row.source_message_id⟩]
          sentMessages := st.sentMessages ++
            [⟨"signal", TARGET_USER, "Auth accepted, but no pending transcript was found."⟩] } ∧
       (∀ now2 : Int, ∀ sub2, validate now2 sub2 (.parsed (.pydict [])) =
          .ok (.parsed (.pydict []), false, "No active code."))) := by
  intro row st o now c e mkvs hex hts hauth hlt hmsg hcm
  obtain ⟨hdig, _⟩ := codeMatch_some hcm
  have hstrip := fourDigits_strip hdig
  have hval : validate_code_sub st.authFile c now = (.parsed (.pydict []), true, "Code valid.") := by
    rw [hauth]
    unfold validate_code_sub
    simp [validate, load_state, authDict, PyVal.truthy, pyLookup, pyGetD, pyAsNum, pyEqStr,
      hlt, hstrip]
  constructor
  · unfold handle_code_event
    simp only [hex, not_true_eq_false, if_false, hmsg, hcm, hval, hts]
    simp [logFail, sendMsg, hts]
  · intro now2 sub2
    simp [validate, load_state, PyVal.truthy]

/-- Claim C10, witness: an unreadable pending file, a valid stored code
"0451", and a code entry " 0451 " — the pending file survives, the auth
state is consumed, and re-validation reports no active code. -/
theorem C10_orphaned_pending_witness :
    handle_code_event rowCode ⟨.invalid, .parsed (authDict "0451" 1300), [], []⟩ oracleNoop 1200 =
      .ok ⟨.invalid, .parsed (.pydict []),
        [⟨1200, "pending_transcript_missing_or_invalid", some "0451", rowCode.source_message_id⟩],
        [⟨"signal", TARGET_USER, "Auth accepted, but no pending transcript was found."⟩]⟩ ∧
    validate 1201 "0451" (.parsed (.pydict [])) =
      .ok (.parsed (.pydict []), false, "No active code.") :=
  ⟨(C10_orphaned_pending rowCode ⟨.invalid, .parsed (authDict "0451" 1300), [], []⟩ oracleNoop
      1200 "0451" 1300 [("text", .pystr " 0451 ")]
      (by rfl) (by rfl) (by rfl) (by decide) (by rfl) (by rfl)).1,
   (C10_orphaned_pending rowCode ⟨.invalid, .parsed (authDict "0451" 1300), [], []⟩ oracleNoop
      1200 "0451" 1300 [("text", .pystr " 0451 ")]
      (by rfl) (by rfl) (by rfl) (by decide) (by rfl) (by rfl)).2 1201 "0451"⟩
